import Mathlib

/-!
Shallow embedding of the libespm plugin parser (`src/libespm/src/plugin.rs`)
and of the record/group/form-id modules it calls (modelled from the
specification where their source is not available), together with proofs
about the embedded functions.

Conventions:
* machine integers are `Nat` (all byte/size arithmetic in the source is on
  unsigned types and stays in range, except where noted);
* a Rust panic (slice index out of bounds, `usize` underflow) is modelled by
  an outer `Option` layer: `none` means the call panics;
* fallible operations return `Except`;
* `nom` parser results are modelled by `NResult`.
-/

deriving instance DecidableEq for Except

namespace Espm

/-- A byte string (`&[u8]` / `Vec<u8>` in the source). -/
abbrev Bytes := List UInt8

/-- The game dialects recognised by the library (`GameId` in the source). -/
inductive GameId
  | Morrowind
  | Oblivion
  | Skyrim
  | SkyrimSE
  | Fallout3
  | FalloutNV
  | Fallout4
deriving DecidableEq, Repr

/-- Model of `nom::ErrorKind` (non-verbose errors): only the shapes this
development distinguishes. `Custom 1` is produced by `parse_form_ids`. -/
inductive NErrKind
  | Custom (code : Nat)
  | Many0
  | Tag
  | Generic
deriving DecidableEq, Repr

/-- Model of `nom::IResult<&[u8], α>`: `Done` carries the remaining input. -/
inductive NResult (α : Type)
  | Done (rest : Bytes) (value : α)
  | Error (kind : NErrKind)
  | Incomplete
deriving DecidableEq, Repr

/-- Model of `nom::IError`. -/
inductive IErr
  | Err (kind : NErrKind)
  | Incomplete
deriving DecidableEq, Repr

/-- Model of `nom`'s `IResult::to_full_result`: it converts the result to a
`Result`, discarding any remaining (unconsumed) input in the `Done` case. -/
def NResult.to_full_result {α : Type} : NResult α → Except IErr α
  | .Done _ o => .ok o
  | .Error k => .error (.Err k)
  | .Incomplete => .error .Incomplete

/-- The error enum of `plugin.rs` (`Error`). The payloads that the claims do
not inspect (`io::Error`) are dropped; `DecodeError` keeps its message. -/
inductive Error
  | NonUtf8FilePath
  | NonUtf8StringData
  | IoError
  | NoFilename
  | ParsingIncomplete
  | ParsingError
  | DecodeError (message : String)
deriving DecidableEq, Repr

/-- The `From<IError> for Error` impl of `plugin.rs`. -/
def errorFromIErr : IErr → Error
  | .Err _ => .ParsingError
  | .Incomplete => .ParsingIncomplete

/-- Little-endian 16-bit read. -/
def u16le (b0 b1 : UInt8) : Nat := b0.toNat + 256 * b1.toNat

/-- Little-endian 32-bit read. -/
def u32le (b0 b1 b2 b3 : UInt8) : Nat :=
  b0.toNat + 256 * b1.toNat + 65536 * b2.toNat + 16777216 * b3.toNat

/-- Little-endian 32-bit read from the first four bytes of a list (the
callers always supply at least four bytes; shorter input reads as zero). -/
def u32leL : Bytes → Nat
  | b0 :: b1 :: b2 :: b3 :: _ => u32le b0 b1 b2 b3
  | _ => 0

/-- `usize` subtraction as used behind a slice index: underflow panics in a
debug build and produces an out-of-range slice bound (hence a panic) in a
release build, so both are modelled as `none`. -/
def usizeSub (a b : Nat) : Option Nat := if b ≤ a then some (a - b) else none

/-- Rust slice indexing `xs[a..b]`: panics (`none`) unless `a ≤ b ≤ len`. -/
def rustSlice (xs : Bytes) (a b : Nat) : Option Bytes :=
  if a ≤ b ∧ b ≤ xs.length then some ((xs.take b).drop a) else none

/-- One byte of strict Windows-1252 decoding: bytes `0x81, 0x8D, 0x8F, 0x90,
0x9D` are undefined, the `0x80`–`0x9F` block otherwise maps through the
Windows-1252 table, everything else maps to the same code point. -/
def w1252Byte (b : UInt8) : Option Char :=
  if b ≤ 0x7F then some (Char.ofNat b.toNat)
  else if 0xA0 ≤ b then some (Char.ofNat b.toNat)
  else match b.toNat with
    | 0x80 => some (Char.ofNat 0x20AC)
    | 0x82 => some (Char.ofNat 0x201A)
    | 0x83 => some (Char.ofNat 0x0192)
    | 0x84 => some (Char.ofNat 0x201E)
    | 0x85 => some (Char.ofNat 0x2026)
    | 0x86 => some (Char.ofNat 0x2020)
    | 0x87 => some (Char.ofNat 0x2021)
    | 0x88 => some (Char.ofNat 0x02C6)
    | 0x89 => some (Char.ofNat 0x2030)
    | 0x8A => some (Char.ofNat 0x0160)
    | 0x8B => some (Char.ofNat 0x2039)
    | 0x8C => some (Char.ofNat 0x0152)
    | 0x8E => some (Char.ofNat 0x017D)
    | 0x91 => some (Char.ofNat 0x2018)
    | 0x92 => some (Char.ofNat 0x2019)
    | 0x93 => some (Char.ofNat 0x201C)
    | 0x94 => some (Char.ofNat 0x201D)
    | 0x95 => some (Char.ofNat 0x2022)
    | 0x96 => some (Char.ofNat 0x2013)
    | 0x97 => some (Char.ofNat 0x2014)
    | 0x98 => some (Char.ofNat 0x02DC)
    | 0x99 => some (Char.ofNat 0x2122)
    | 0x9A => some (Char.ofNat 0x0161)
    | 0x9B => some (Char.ofNat 0x203A)
    | 0x9C => some (Char.ofNat 0x0153)
    | 0x9E => some (Char.ofNat 0x017E)
    | 0x9F => some (Char.ofNat 0x0178)
    | _ => none

/-- `WINDOWS_1252.decode(data, DecoderTrap::Strict)`: strict decoding of a
whole byte string; an undefined byte fails with the decoder's message. -/
def w1252Decode : Bytes → Except String (List Char)
  | [] => .ok []
  | b :: rest =>
    match w1252Byte b with
    | none => .error "invalid sequence"
    | some c => (w1252Decode rest).map (fun l => c :: l)

/-- Is `b` a UTF-8 continuation byte? -/
def utf8Cont (b : UInt8) : Bool := 0x80 ≤ b && b ≤ 0xBF

/-- Code point of a two-byte UTF-8 sequence. -/
def utf8Cp2 (b0 b1 : UInt8) : Nat := (b0.toNat - 0xC0) * 64 + (b1.toNat - 0x80)

/-- Code point of a three-byte UTF-8 sequence. -/
def utf8Cp3 (b0 b1 b2 : UInt8) : Nat :=
  (b0.toNat - 0xE0) * 4096 + (b1.toNat - 0x80) * 64 + (b2.toNat - 0x80)

/-- Code point of a four-byte UTF-8 sequence. -/
def utf8Cp4 (b0 b1 b2 b3 : UInt8) : Nat :=
  (b0.toNat - 0xF0) * 262144 + (b1.toNat - 0x80) * 4096 +
    (b2.toNat - 0x80) * 64 + (b3.toNat - 0x80)

/-- Strict UTF-8 decoding (model of `OsStr::to_str`), fuel-indexed; each
step consumes at least one byte, so fuel `length` suffices. Rejects
overlong encodings, surrogates and code points above `U+10FFFF`. -/
def utf8DecodeAux : Nat → Bytes → Option (List Char)
  | _, [] => some []
  | 0, _ :: _ => none
  | fuel + 1, b :: rest =>
    if b ≤ 0x7F then
      (utf8DecodeAux fuel rest).map (fun l => Char.ofNat b.toNat :: l)
    else if 0xC2 ≤ b && b ≤ 0xDF then
      match rest with
      | b1 :: rest1 =>
        if utf8Cont b1 then
          (utf8DecodeAux fuel rest1).map (fun l => Char.ofNat (utf8Cp2 b b1) :: l)
        else none
      | _ => none
    else if 0xE0 ≤ b && b ≤ 0xEF then
      match rest with
      | b1 :: b2 :: rest2 =>
        let lo : UInt8 := if b == 0xE0 then 0xA0 else 0x80
        let hi : UInt8 := if b == 0xED then 0x9F else 0xBF
        if (lo ≤ b1 && b1 ≤ hi) && utf8Cont b2 then
          (utf8DecodeAux fuel rest2).map (fun l => Char.ofNat (utf8Cp3 b b1 b2) :: l)
        else none
      | _ => none
    else if 0xF0 ≤ b && b ≤ 0xF4 then
      match rest with
      | b1 :: b2 :: b3 :: rest3 =>
        let lo : UInt8 := if b == 0xF0 then 0x90 else 0x80
        let hi : UInt8 := if b == 0xF4 then 0x8F else 0xBF
        if (lo ≤ b1 && b1 ≤ hi) && utf8Cont b2 && utf8Cont b3 then
          (utf8DecodeAux fuel rest3).map (fun l => Char.ofNat (utf8Cp4 b b1 b2 b3) :: l)
        else none
      | _ => none
    else none

/-- Strict UTF-8 decoding of a whole byte string; `none` when the bytes are
not valid UTF-8 (model of `OsStr::to_str` returning `None`). -/
def utf8Decode (bs : Bytes) : Option (List Char) := utf8DecodeAux bs.length bs

/-- Model of a filesystem path: only its final component (`file_name`) is
relevant to `plugin.rs`; `none` means the path has no final component. -/
structure OsPath where
  fileName : Option Bytes
deriving DecidableEq, Repr

/-- Rightmost index of a `.` byte, if any. -/
def lastDotAux : Bytes → Nat → Option Nat → Option Nat
  | [], _, acc => acc
  | b :: rest, i, acc => lastDotAux rest (i + 1) (if b = 0x2E then some i else acc)

/-- Rightmost index of a `.` byte in a byte string. -/
def lastDot (bs : Bytes) : Option Nat := lastDotAux bs 0 none

/-- Model of Rust std's `split_file_at_dot`: split a file name at its last
dot, except that `".."` and names whose only dot is leading do not split. -/
def splitFileAtDot (file : Bytes) : Bytes × Option Bytes :=
  if file = [0x2E, 0x2E] then (file, none)
  else
    match lastDot file with
    | none => (file, none)
    | some i =>
      if i = 0 then (file, none)
      else (file.take i, some (file.drop (i + 1)))

/-- Model of `Path::extension`. -/
def OsPath.extension (p : OsPath) : Option Bytes :=
  p.fileName.bind (fun f => (splitFileAtDot f).2)

/-- Model of `Path::file_stem`. -/
def OsPath.fileStem (p : OsPath) : Option Bytes :=
  p.fileName.map (fun f => (splitFileAtDot f).1)

/-- A subrecord: 4-byte type code plus opaque payload. -/
structure Subrecord where
  subrecord_type : Bytes
  data : Bytes
deriving DecidableEq, Repr

/-- Modelled from the spec: the record header fields `plugin.rs` reads
(type code, flags word, form identifier); the opaque version/revision field
is not retained. For the TES3 dialect the stored flags word is the record
flags (the fourth header field) and the form identifier is zero. -/
structure RecordHeader where
  record_type : Bytes
  flags : Nat
  form_id : Nat
deriving DecidableEq, Repr

/-- A record: header plus subrecords. -/
structure Record where
  header : RecordHeader
  subrecords : List Subrecord
deriving DecidableEq, Repr

/-- Modelled from the spec: `Record::default()` (the record module is not
under `src/`) — the all-empty record a fresh `PluginData` starts with. -/
def Record.default : Record := ⟨⟨[], 0, 0⟩, []⟩

/-- A fully-qualified form identifier (`FormId` in the source): owner plugin
name plus 24-bit object index. -/
structure FormId where
  plugin_name : List Char
  object_index : Nat
deriving DecidableEq, Repr

/-- Modelled from the spec: `FormId::new` (§4.5) — the owner table is the
masters followed by the plugin itself, the master-index byte saturates to
the plugin's own name, and the low 24 bits are the object index. -/
def FormId.new (filename : List Char) (masters : List (List Char)) (raw : Nat) : FormId :=
  let table := masters ++ [filename]
  let idx := raw / 16777216
  ⟨table.getD (min idx masters.length) filename, raw % 16777216⟩

/-- The byte string `"MAST"`. -/
def mastType : Bytes := [0x4D, 0x41, 0x53, 0x54]

/-- The byte string `"HEDR"`. -/
def hedrType : Bytes := [0x48, 0x45, 0x44, 0x52]

/-- The byte string `"SNAM"`. -/
def snamType : Bytes := [0x53, 0x4E, 0x41, 0x4D]

/-- The byte string `"GRUP"`. -/
def grupType : Bytes := [0x47, 0x52, 0x55, 0x50]

/-- The byte string `"XXXX"`. -/
def xxxxType : Bytes := [0x58, 0x58, 0x58, 0x58]

/-- The byte string `"esm"`. -/
def esmBytes : Bytes := [0x65, 0x73, 0x6D]

/-- The byte string `"ghost"`. -/
def ghostBytes : Bytes := [0x67, 0x68, 0x6F, 0x73, 0x74]

/-- Modelled from the spec: one TES4 subrecord (§4.1) — 4-byte type, 2-byte
little-endian size, payload; an `XXXX` subrecord's 4-byte payload becomes
the pending large size, which overrides the next declared size. Returns the
subrecord together with the new pending large size. -/
def parseSubrecordT4 (largeSize : Option Nat) : Bytes →
    NResult (Subrecord × Option Nat)
  | t0 :: t1 :: t2 :: t3 :: s0 :: s1 :: rest =>
    let t : Bytes := [t0, t1, t2, t3]
    let size := match largeSize with
      | some n => n
      | none => u16le s0 s1
    if rest.length < size then .Incomplete
    else
      let d := rest.take size
      let hint := if t = xxxxType then some (u32leL d) else none
      .Done (rest.drop size) (⟨t, d⟩, hint)
  | _ => .Incomplete

/-- Modelled from the spec: one TES3 subrecord (§4.1) — 4-byte type, 4-byte
little-endian size, payload; no large-size extension. -/
def parseSubrecordT3 : Bytes → NResult Subrecord
  | t0 :: t1 :: t2 :: t3 :: s0 :: s1 :: s2 :: s3 :: rest =>
    let size := u32le s0 s1 s2 s3
    if rest.length < size then .Incomplete
    else .Done (rest.drop size) ⟨[t0, t1, t2, t3], rest.take size⟩
  | _ => .Incomplete

/-- Modelled from the spec: TES4 subrecord enumeration over a record payload
(§4.2), carrying the pending large size, until the payload is exhausted.
Fuel-indexed; each step consumes at least six bytes. -/
def parseSubrecordsT4 : Nat → Option Nat → Bytes → NResult (List Subrecord)
  | _, _, [] => .Done [] []
  | 0, _, _ :: _ => .Incomplete
  | fuel + 1, hint, input =>
    match parseSubrecordT4 hint input with
    | .Incomplete => .Incomplete
    | .Error k => .Error k
    | .Done rest (s, newHint) =>
      match parseSubrecordsT4 fuel newHint rest with
      | .Done r l => .Done r (s :: l)
      | .Error k => .Error k
      | .Incomplete => .Incomplete

/-- Modelled from the spec: TES3 subrecord enumeration over a record
payload, until the payload is exhausted. Fuel-indexed. -/
def parseSubrecordsT3 : Nat → Bytes → NResult (List Subrecord)
  | _, [] => .Done [] []
  | 0, _ :: _ => .Incomplete
  | fuel + 1, input =>
    match parseSubrecordT3 input with
    | .Incomplete => .Incomplete
    | .Error k => .Error k
    | .Done rest s =>
      match parseSubrecordsT3 fuel rest with
      | .Done r l => .Done r (s :: l)
      | .Error k => .Error k
      | .Incomplete => .Incomplete

/-- Modelled from the spec: `Record::parse` (§4.2) — TES4 header is 20
bytes (type, size, flags, form id, version), TES3 header is 16 bytes (type,
size, header flags, record flags; no form id — zero is synthesised); the
payload is then enumerated as subrecords unless `skip_subrecords` is set.
zlib decompression is not modelled: a TES4 record whose compressed flag
`0x40000` is set and whose subrecords are required is reported as a parse
error. -/
def Record.parse (game_id : GameId) (skip_subrecords : Bool) (input : Bytes) :
    NResult Record :=
  if game_id = GameId.Morrowind then
    match input with
    | t0 :: t1 :: t2 :: t3 :: s0 :: s1 :: s2 :: s3 ::
        _h0 :: _h1 :: _h2 :: _h3 :: g0 :: g1 :: g2 :: g3 :: rest =>
      let size := u32le s0 s1 s2 s3
      let flags := u32le g0 g1 g2 g3
      if rest.length < size then .Incomplete
      else
        let payload := rest.take size
        let remaining := rest.drop size
        if skip_subrecords then .Done remaining ⟨⟨[t0, t1, t2, t3], flags, 0⟩, []⟩
        else
          match parseSubrecordsT3 payload.length payload with
          | .Done _ subs => .Done remaining ⟨⟨[t0, t1, t2, t3], flags, 0⟩, subs⟩
          | .Error k => .Error k
          | .Incomplete => .Incomplete
    | _ => .Incomplete
  else
    match input with
    | t0 :: t1 :: t2 :: t3 :: s0 :: s1 :: s2 :: s3 ::
        f0 :: f1 :: f2 :: f3 :: i0 :: i1 :: i2 :: i3 ::
        _v0 :: _v1 :: _v2 :: _v3 :: rest =>
      let size := u32le s0 s1 s2 s3
      let flags := u32le f0 f1 f2 f3
      let fid := u32le i0 i1 i2 i3
      if rest.length < size then .Incomplete
      else
        let payload := rest.take size
        let remaining := rest.drop size
        if skip_subrecords then .Done remaining ⟨⟨[t0, t1, t2, t3], flags, fid⟩, []⟩
        else if flags &&& 0x40000 ≠ 0 then .Error .Generic
        else
          match parseSubrecordsT4 payload.length none payload with
          | .Done _ subs => .Done remaining ⟨⟨[t0, t1, t2, t3], flags, fid⟩, subs⟩
          | .Error k => .Error k
          | .Incomplete => .Incomplete
    | _ => .Incomplete

/-- Modelled from the spec: `Record::parse_form_id` (§4.2, form-id-only
mode) — read the fixed header, skip the payload as opaque bytes, return the
form identifier (zero for TES3). -/
def Record.parse_form_id (game_id : GameId) (input : Bytes) : NResult Nat :=
  if game_id = GameId.Morrowind then
    match input with
    | _ :: _ :: _ :: _ :: s0 :: s1 :: s2 :: s3 ::
        _ :: _ :: _ :: _ :: _ :: _ :: _ :: _ :: rest =>
      let size := u32le s0 s1 s2 s3
      if rest.length < size then .Incomplete
      else .Done (rest.drop size) 0
    | _ => .Incomplete
  else
    match input with
    | _ :: _ :: _ :: _ :: s0 :: s1 :: s2 :: s3 ::
        _ :: _ :: _ :: _ :: i0 :: i1 :: i2 :: i3 ::
        _ :: _ :: _ :: _ :: rest =>
      let size := u32le s0 s1 s2 s3
      if rest.length < size then .Incomplete
      else .Done (rest.drop size) (u32le i0 i1 i2 i3)
    | _ => .Incomplete

/-- A TES4 group, reduced to what the plugin assembler uses: the form
identifiers of every record beneath it, in document order. -/
structure Group where
  form_ids : List Nat
deriving DecidableEq, Repr

/-- Modelled from the spec: group decoding (§4.3), fuel-indexed. In mode
`true` one group is consumed from the input: a 24-byte header whose tag
must be `GRUP` (tag mismatch is a parse error, a short tag is incomplete
input), a total size that includes the header (an inconsistent size — less
than 24, or a body shorter than advertised — is a parse error), then the
body. In mode `false` an entire body is walked exhaustively: a leading
`GRUP` tag starts a nested group, anything else a record, and the form
identifiers are accumulated in document order. -/
def groupStep (game_id : GameId) : Nat → Bool → Bytes → NResult (List Nat)
  | 0, _, _ => .Error .Generic
  | fuel + 1, true, input =>
    if input.length < 4 then .Incomplete
    else if input.take 4 ≠ grupType then .Error .Tag
    else if input.length < 24 then .Incomplete
    else
      let totalSize := u32leL ((input.drop 4).take 4)
      if totalSize < 24 then .Error .Generic
      else
        let rest0 := input.drop 24
        if rest0.length < totalSize - 24 then .Error .Generic
        else
          match groupStep game_id fuel false (rest0.take (totalSize - 24)) with
          | .Done _ fids => .Done (rest0.drop (totalSize - 24)) fids
          | .Error k => .Error k
          | .Incomplete => .Incomplete
  | fuel + 1, false, input =>
    match input with
    | [] => .Done [] []
    | _ :: _ =>
      if input.take 4 = grupType then
        match groupStep game_id fuel true input with
        | .Done rest fids =>
          match groupStep game_id fuel false rest with
          | .Done r l => .Done r (fids ++ l)
          | .Error k => .Error k
          | .Incomplete => .Incomplete
        | .Error k => .Error k
        | .Incomplete => .Error .Generic
      else
        match Record.parse_form_id game_id input with
        | .Done rest fid =>
          match groupStep game_id fuel false rest with
          | .Done r l => .Done r (fid :: l)
          | .Error k => .Error k
          | .Incomplete => .Incomplete
        | .Error k => .Error k
        | .Incomplete => .Error .Generic

/-- Modelled from the spec: `Group::new` — decode one group and collect the
form identifiers beneath it. -/
def Group.new (game_id : GameId) (input : Bytes) : NResult Group :=
  match groupStep game_id (input.length + 1) true input with
  | .Done rest fids => .Done rest ⟨fids⟩
  | .Error k => .Error k
  | .Incomplete => .Incomplete

/-- Model of `nom`'s `many0!` loop body (fuel-indexed, fuel `length + 1`
suffices for input-consuming parsers): stop with the accumulated results on
empty input or on the child's error, propagate incomplete input, and fail
with `Many0` if the child consumes nothing. -/
def many0Aux {α : Type} (p : Bytes → NResult α) :
    Nat → Bytes → List α → NResult (List α)
  | 0, _, _ => .Error .Many0
  | fuel + 1, input, acc =>
    if input.length = 0 then .Done input acc.reverse
    else
      match p input with
      | .Error _ => .Done input acc.reverse
      | .Incomplete => .Incomplete
      | .Done i o =>
        if i = input then .Error .Many0
        else many0Aux p fuel i (o :: acc)

/-- Model of `nom`'s `many0!`. -/
def many0 {α : Type} (p : Bytes → NResult α) (input : Bytes) : NResult (List α) :=
  many0Aux p (input.length + 1) input []

/-- The iteration of the free function `masters` of `plugin.rs`: for each
`MAST` subrecord in order, slice off the trailing byte (`data.len() - 1`
underflows and the slice panics on an empty payload — modelled by the outer
`none`), decode strictly, and collect into a `Result`, stopping at the
first decode error exactly as `collect::<Result<_, _>>` does. -/
def mastersAux : List Subrecord → Option (Except Error (List (List Char)))
  | [] => some (.ok [])
  | s :: rest =>
    match usizeSub s.data.length 1 with
    | none => none
    | some n =>
      match rustSlice s.data 0 n with
      | none => none
      | some d =>
        match w1252Decode d with
        | .error m => some (.error (.DecodeError m))
        | .ok str =>
          match mastersAux rest with
          | none => none
          | some (.error e) => some (.error e)
          | some (.ok l) => some (.ok (str :: l))

/-- The `MAST` subrecords of a header record, in declaration order. -/
def mastRecords (header_record : Record) : List Subrecord :=
  header_record.subrecords.filter (fun s => s.subrecord_type = mastType)

/-- The free function `masters` of `plugin.rs`. -/
def masters (header_record : Record) : Option (Except Error (List (List Char))) :=
  mastersAux (mastRecords header_record)

/-- `PluginData` of `plugin.rs`. -/
structure PluginData where
  header_record : Record
  form_ids : List FormId
deriving DecidableEq, Repr

/-- `PluginData::default()`. -/
def PluginData.default : PluginData := ⟨Record.default, []⟩

/-- `Plugin` of `plugin.rs`. -/
structure Plugin where
  game_id : GameId
  path : OsPath
  data : PluginData
deriving DecidableEq, Repr

/-- `Plugin::new`. -/
def Plugin.new (game_id : GameId) (filepath : OsPath) : Plugin :=
  ⟨game_id, filepath, PluginData.default⟩

/-- `Plugin::filename`: the path's final component interpreted as text. -/
def Plugin.filename (p : Plugin) : Option (List Char) :=
  p.path.fileName.bind (fun f => utf8Decode f)

/-- `parse_form_ids` of `plugin.rs`: resolve the declared masters (a panic
inside `masters` propagates; a masters error becomes the custom `nom` error
`Custom 1`), then enumerate raw form identifiers — records for Morrowind,
top-level groups otherwise — and qualify each one. -/
def parse_form_ids (input : Bytes) (game_id : GameId) (filename : List Char)
    (header_record : Record) : Option (NResult (List FormId)) :=
  match masters header_record with
  | none => none
  | some (.error _) => some (.Error (.Custom 1))
  | some (.ok ms) =>
    if game_id = GameId.Morrowind then
      match many0 (Record.parse_form_id game_id) input with
      | .Done input1 raws =>
        some (.Done input1 (raws.map (fun r => FormId.new filename ms r)))
      | .Error k => some (.Error k)
      | .Incomplete => some .Incomplete
    else
      match many0 (Group.new game_id) input with
      | .Done input1 groups =>
        some (.Done input1
          (((groups.map Group.form_ids).flatten).map (fun r => FormId.new filename ms r)))
      | .Error k => some (.Error k)
      | .Incomplete => some .Incomplete

/-- `parse_plugin` of `plugin.rs`: parse the header record in full, stop
there in header-only mode, otherwise enumerate and resolve the body's form
identifiers. -/
def parse_plugin (input : Bytes) (game_id : GameId) (filename : List Char)
    (load_header_only : Bool) : Option (NResult PluginData) :=
  match Record.parse game_id false input with
  | .Error k => some (.Error k)
  | .Incomplete => some .Incomplete
  | .Done input1 header_record =>
    if load_header_only then some (.Done input1 ⟨header_record, []⟩)
    else
      match parse_form_ids input1 game_id filename header_record with
      | none => none
      | some (.Error k) => some (.Error k)
      | some .Incomplete => some .Incomplete
      | some (.Done input2 form_ids) => some (.Done input2 ⟨header_record, form_ids⟩)

/-- `Plugin::parse`: resolve the filename (no final text component is the
`NoFilename` error), run `parse_plugin`, convert through `to_full_result`,
and store the parsed data only on success. The outer `none` is a panic
propagating out of the parse. -/
def Plugin.parse (p : Plugin) (input : Bytes) (load_header_only : Bool) :
    Option (Except Error Unit × Plugin) :=
  match p.filename with
  | none => some (.error .NoFilename, p)
  | some filename =>
    match parse_plugin input p.game_id filename load_header_only with
    | none => none
    | some r =>
      match r.to_full_result with
      | .ok d => some (.ok (), { p with data := d })
      | .error e => some (.error (errorFromIErr e), p)

/-- `Plugin::masters`. -/
def Plugin.masters (p : Plugin) : Option (Except Error (List (List Char))) :=
  Espm.masters p.data.header_record

/-- The inner file-stem check of `Plugin::is_master_file`'s ghost branch:
`file_stem().and_then(to_str)` then `ends_with(".esm")`. -/
def ghostStemCheck (p : Plugin) : Bool :=
  match p.path.fileStem.bind (fun fs => utf8Decode fs) with
  | some fs => List.isSuffixOf ".esm".data fs
  | none => false

/-- `Plugin::is_master_file`. -/
def Plugin.is_master_file (p : Plugin) : Bool :=
  if p.game_id ≠ GameId.Morrowind then
    p.data.header_record.header.flags &&& 0x1 ≠ 0
  else
    match p.path.extension with
    | some x =>
      if x = esmBytes then true
      else if x = ghostBytes then ghostStemCheck p
      else false
    | none => false

/-- The target subrecord type and description offset `Plugin::description`
selects from the dialect. -/
def descTarget (game_id : GameId) : Bytes × Nat :=
  if game_id = GameId.Morrowind then (hedrType, 40) else (snamType, 0)

/-- The subrecord loop of `Plugin::description`: the first subrecord of the
target type is sliced from the description offset up to its last byte
(panicking — outer `none` — when the payload is too short) and decoded
strictly; no match yields no description. -/
def descriptionAux (target : Bytes) (offset : Nat) :
    List Subrecord → Option (Except Error (Option (List Char)))
  | [] => some (.ok none)
  | s :: rest =>
    if s.subrecord_type = target then
      match usizeSub s.data.length 1 with
      | none => none
      | some n =>
        match rustSlice s.data offset n with
        | none => none
        | some d =>
          match w1252Decode d with
          | .error m => some (.error (.DecodeError m))
          | .ok str => some (.ok (some str))
    else descriptionAux target offset rest

/-- `Plugin::description`. -/
def Plugin.description (p : Plugin) : Option (Except Error (Option (List Char))) :=
  descriptionAux (descTarget p.game_id).1 (descTarget p.game_id).2
    p.data.header_record.subrecords

/-- The subrecord loop of `Plugin::record_and_group_count`: the first
`HEDR` subrecord's four bytes at the count offset, read little-endian
(panicking — outer `none` — when the payload is too short). -/
def countAux (offset : Nat) : List Subrecord → Option (Option Nat)
  | [] => some none
  | s :: rest =>
    if s.subrecord_type = hedrType then
      match rustSlice s.data offset (offset + 4) with
      | none => none
      | some d => some (some (u32leL d))
    else countAux offset rest

/-- `Plugin::record_and_group_count`. -/
def Plugin.record_and_group_count (p : Plugin) : Option (Option Nat) :=
  countAux (if p.game_id = GameId.Morrowind then 296 else 4)
    p.data.header_record.subrecords

/-- `Plugin::form_ids`. -/
def Plugin.form_ids (p : Plugin) : List FormId := p.data.form_ids

/-- The byte string `"TES4"`. -/
def tes4Type : Bytes := [0x54, 0x45, 0x53, 0x34]

/-- The byte string `"Blank.esp"`. -/
def blankEspName : Bytes := [0x42, 0x6C, 0x61, 0x6E, 0x6B, 0x2E, 0x65, 0x73, 0x70]

/-- A Skyrim plugin at path `Blank.esp`, freshly constructed. -/
def p0 : Plugin := Plugin.new GameId.Skyrim ⟨some blankEspName⟩

/-- A minimal TES4 header record on the wire: type `TES4`, zero payload
size, zero flags, zero form id, zero version. -/
def hdr20 : Bytes := tes4Type ++ [0, 0, 0, 0, 0, 0, 0, 0, 0, 0, 0, 0, 0, 0, 0, 0]

/-- Trailing bytes `"ABCD"`: too short for a record, wrong tag for a group. -/
def c1Garbage : Bytes := [0x41, 0x42, 0x43, 0x44]

/-- A well-formed header record followed by four bytes of garbage. -/
def c1Input : Bytes := hdr20 ++ c1Garbage

/-- The record `hdr20` decodes to. -/
def emptyTes4Record : Record := ⟨⟨tes4Type, 0, 0⟩, []⟩

/-- A TES4 header record on the wire whose single `MAST` subrecord payload
is `[0x81, 0x00]`; `0x81` is undefined in Windows-1252. -/
def c8Input : Bytes :=
  tes4Type ++ [8, 0, 0, 0, 0, 0, 0, 0, 0, 0, 0, 0, 0, 0, 0, 0] ++
    mastType ++ [2, 0, 0x81, 0]

/-- The record `c8Input` decodes to. -/
def c8Hr : Record := ⟨⟨tes4Type, 0, 0⟩, [⟨mastType, [0x81, 0]⟩]⟩

/-- A plugin that carries previously parsed data. -/
def pPrior : Plugin :=
  ⟨GameId.Skyrim, ⟨some blankEspName⟩,
    ⟨⟨⟨tes4Type, 7, 9⟩, [⟨snamType, [0x41, 0]⟩]⟩, [⟨['x'], 5⟩]⟩⟩

/-- A failed `Plugin::parse` leaves the plugin unchanged: the data field is
assigned only after `to_full_result` succeeds. -/
theorem parse_error_preserves (p : Plugin) (input : Bytes) (hdr : Bool) (e : Error)
    (p2 : Plugin) (h : p.parse input hdr = some (.error e, p2)) : p2 = p := by
  unfold Plugin.parse at h
  split at h
  · simp only [Option.some.injEq, Prod.mk.injEq] at h
    exact h.2.symm
  · split at h
    · exact absurd h (by simp)
    · split at h
      · simp at h
      · simp only [Option.some.injEq, Prod.mk.injEq] at h
        exact h.2.symm

/-- C2: if `Plugin::parse` returns an error, the plugin instance — in
particular its stored header record and form-id list — is exactly what it
was before the call. -/
theorem c2_error_leaves_plugin_unchanged (p : Plugin) (input : Bytes) (hdr : Bool)
    (e : Error) (p2 : Plugin) (h : p.parse input hdr = some (.error e, p2)) :
    p2 = p :=
  parse_error_preserves p input hdr e p2 h

/-- C2 witness: a plugin holding previously parsed data, fed empty input
(the parse fails with incomplete input), is returned unchanged. -/
theorem c2_witness : pPrior = pPrior :=
  c2_error_leaves_plugin_unchanged pPrior [] false .ParsingIncomplete pPrior rfl

/-- C7 counterexample: a path whose final component is the non-UTF-8 byte
`0xFF` does have a final component, yet `Plugin::parse` rejects it with
`NoFilename` — the missing-filename kind — not with `NonUtf8FilePath`. -/
theorem c7_counterexample :
    Plugin.parse (Plugin.new GameId.Skyrim ⟨some [0xFF]⟩) [] false
      = some (.error .NoFilename, Plugin.new GameId.Skyrim ⟨some [0xFF]⟩)
    ∧ (Plugin.new GameId.Skyrim ⟨some [0xFF]⟩).path.fileName ≠ none
    ∧ utf8Decode [0xFF] = none
    ∧ Error.NoFilename ≠ Error.NonUtf8FilePath :=
  ⟨rfl, by decide, rfl, by decide⟩

/-- C7 (amended): a path whose final component is not valid UTF-8 is
rejected up front, but with the missing-filename error kind `NoFilename` —
the same kind used for paths with no final component at all; the distinct
`NonUtf8FilePath` kind is declared but never produced by `parse`. -/
theorem c7_non_text_path_rejected (p : Plugin) (input : Bytes) (hdr : Bool)
    (bs : Bytes) (h1 : p.path.fileName = some bs) (h2 : utf8Decode bs = none) :
    p.parse input hdr = some (.error .NoFilename, p) := by
  have hf : p.filename = none := by
    unfold Plugin.filename
    rw [h1]
    exact h2
  unfold Plugin.parse
  rw [hf]

/-- C7 witness: the amended statement at the concrete path `[0xFF]`. -/
theorem c7_witness :
    Plugin.parse (Plugin.new GameId.Morrowind ⟨some [0xFF, 0x41]⟩) c1Input true
      = some (.error .NoFilename, Plugin.new GameId.Morrowind ⟨some [0xFF, 0x41]⟩) :=
  c7_non_text_path_rejected (Plugin.new GameId.Morrowind ⟨some [0xFF, 0x41]⟩)
    c1Input true [0xFF, 0x41] rfl rfl

/-- C9: the header-interpretation accessors panic (modelled as `none`)
outside their payload-size preconditions: `masters` on an empty `MAST`
payload, `description` on a matched `SNAM` payload shorter than 1 byte and
on a matched Morrowind `HEDR` payload shorter than 41 bytes, and
`record_and_group_count` on a `HEDR` payload shorter than the count offset
plus four bytes. -/
theorem c9_accessor_panics :
    masters ⟨⟨tes4Type, 0, 0⟩, [⟨mastType, []⟩]⟩ = none
    ∧ Plugin.description
        ⟨GameId.Skyrim, ⟨none⟩, ⟨⟨⟨tes4Type, 0, 0⟩, [⟨snamType, []⟩]⟩, []⟩⟩ = none
    ∧ Plugin.description
        ⟨GameId.Morrowind, ⟨none⟩,
          ⟨⟨⟨tes4Type, 0, 0⟩, [⟨hedrType, List.replicate 40 0⟩]⟩, []⟩⟩ = none
    ∧ Plugin.record_and_group_count
        ⟨GameId.Skyrim, ⟨none⟩,
          ⟨⟨⟨tes4Type, 0, 0⟩, [⟨hedrType, [1, 2, 3, 4, 5, 6, 7]⟩]⟩, []⟩⟩ = none :=
  ⟨rfl, rfl, rfl, rfl⟩

/-- C10: a freshly constructed plugin yields the empty defaults from every
read accessor — empty masters list, no description, no record-and-group
count, empty form-id list — and this state is preserved by any failed
parse. -/
theorem c10_fresh_plugin_defaults (gid : GameId) (path : OsPath) :
    Plugin.masters (Plugin.new gid path) = some (.ok [])
    ∧ Plugin.description (Plugin.new gid path) = some (.ok none)
    ∧ Plugin.record_and_group_count (Plugin.new gid path) = some none
    ∧ Plugin.form_ids (Plugin.new gid path) = []
    ∧ ∀ input hdr e p2,
        (Plugin.new gid path).parse input hdr = some (.error e, p2) →
        p2 = Plugin.new gid path :=
  ⟨rfl, rfl, rfl, rfl,
    fun input hdr e p2 h => parse_error_preserves (Plugin.new gid path) input hdr e p2 h⟩

/-- C10 witness: the defaults at a concrete plugin, and a concrete failed
parse (no filename) that leaves it unchanged. -/
theorem c10_witness :
    Plugin.masters (Plugin.new GameId.Oblivion ⟨none⟩) = some (.ok [])
    ∧ Plugin.new GameId.Oblivion ⟨none⟩ = Plugin.new GameId.Oblivion ⟨none⟩ :=
  ⟨(c10_fresh_plugin_defaults GameId.Oblivion ⟨none⟩).1,
    (c10_fresh_plugin_defaults GameId.Oblivion ⟨none⟩).2.2.2.2 [] false .NoFilename
      (Plugin.new GameId.Oblivion ⟨none⟩) rfl⟩

/-- C1 counterexample: `Plugin::parse` succeeds on a well-formed header
record followed by four garbage bytes — `parse_plugin` stops before them
(`Done` with `"ABCD"` unconsumed, bytes that are neither a record — both
record parses report incomplete input — nor a group — the tag mismatches),
yet `to_full_result` discards the unconsumed input and the parse returns
success rather than a parsing error. -/
theorem c1_counterexample :
    Plugin.parse p0 c1Input false
      = some (.ok (), ⟨GameId.Skyrim, ⟨some blankEspName⟩, ⟨emptyTes4Record, []⟩⟩)
    ∧ parse_plugin c1Input GameId.Skyrim "Blank.esp".data false
      = some (.Done c1Garbage ⟨emptyTes4Record, []⟩)
    ∧ c1Garbage ≠ []
    ∧ Record.parse GameId.Skyrim false c1Garbage = .Incomplete
    ∧ Record.parse_form_id GameId.Skyrim c1Garbage = .Incomplete
    ∧ Group.new GameId.Skyrim c1Garbage = .Error .Tag :=
  ⟨rfl, rfl, by decide, rfl, rfl, rfl⟩

/-- C1 (amended): `Plugin::parse` does not require the input to be fully
consumed: whenever `parse_plugin` returns `Done`, the parse succeeds and
stores the data regardless of how much input remains; a `nom` error becomes
the `ParsingError` kind and incomplete input becomes `ParsingIncomplete`. -/
theorem c1_parse_outcomes (p : Plugin) (input : Bytes) (hdr : Bool)
    (fn : List Char) (h : p.filename = some fn) :
    (∀ rest d, parse_plugin input p.game_id fn hdr = some (.Done rest d) →
      p.parse input hdr = some (.ok (), { p with data := d }))
    ∧ (∀ k, parse_plugin input p.game_id fn hdr = some (.Error k) →
      p.parse input hdr = some (.error .ParsingError, p))
    ∧ (parse_plugin input p.game_id fn hdr = some .Incomplete →
      p.parse input hdr = some (.error .ParsingIncomplete, p)) := by
  refine ⟨fun rest d hpp => ?_, fun k hpp => ?_, fun hpp => ?_⟩ <;>
    · unfold Plugin.parse
      simp only [h, hpp, NResult.to_full_result, errorFromIErr]

/-- C1 witness: the amended statement applied at the concrete garbage-tailed
input — the parse succeeds with four bytes left over. -/
theorem c1_witness :
    Plugin.parse p0 c1Input false
      = some (.ok (), { p0 with data := ⟨emptyTes4Record, []⟩ }) :=
  (c1_parse_outcomes p0 c1Input false "Blank.esp".data rfl).1 c1Garbage
    ⟨emptyTes4Record, []⟩ rfl

/-- C8 counterexample: a full parse of a header record whose `MAST`
subrecord payload fails strict Windows-1252 decoding fails with the generic
`ParsingError` kind — the decode error that `masters` reports is replaced
by the custom `nom` error `Custom 1` inside `parse_form_ids` and so never
reaches the caller as `DecodeError`. -/
theorem c8_counterexample :
    Plugin.parse p0 c8Input false = some (.error .ParsingError, p0)
    ∧ masters c8Hr = some (.error (.DecodeError "invalid sequence"))
    ∧ Error.ParsingError ≠ Error.DecodeError "invalid sequence" :=
  ⟨rfl, rfl, by decide⟩

/-- C8 (amended): during a full parse, a header record whose declared
masters fail to resolve (for instance because a `MAST` payload fails strict
Windows-1252 decoding) makes the parse fail with the generic `ParsingError`
kind; the decode error kind is produced only by the accessors. -/
theorem c8_mast_decode_failure_is_parsing_error (p : Plugin) (input : Bytes)
    (fn : List Char) (i1 : Bytes) (hr : Record) (e : Error)
    (h0 : p.filename = some fn)
    (h1 : Record.parse p.game_id false input = .Done i1 hr)
    (h2 : masters hr = some (.error e)) :
    p.parse input false = some (.error .ParsingError, p) := by
  have hpp : parse_plugin input p.game_id fn false = some (.Error (.Custom 1)) := by
    unfold parse_plugin parse_form_ids
    simp only [h1, h2, Bool.false_eq_true, if_false]
  unfold Plugin.parse
  simp only [h0, hpp, NResult.to_full_result, errorFromIErr]

/-- C8 witness: the amended statement at the concrete input `c8Input`. -/
theorem c8_witness : Plugin.parse p0 c8Input false = some (.error .ParsingError, p0) :=
  c8_mast_decode_failure_is_parsing_error p0 c8Input "Blank.esp".data [] c8Hr
    (.DecodeError "invalid sequence") rfl rfl rfl

/-- Claim-side master-file characterisation (C3's words): outside Morrowind
the flag bit `0x1` of the header record's flags word decides; for Morrowind
the path decides — extension exactly `"esm"`, or extension exactly
`"ghost"` with a file stem (as text) ending in `".esm"`; every other path
is not a master. -/
def c3Spec (p : Plugin) : Bool :=
  if p.game_id = GameId.Morrowind then
    decide (p.path.extension = some esmBytes) ||
      (decide (p.path.extension = some ghostBytes) && ghostStemCheck p)
  else decide (p.data.header_record.header.flags &&& 0x1 ≠ 0)

/-- C3: `Plugin::is_master_file` agrees with the claim's characterisation
on every plugin. -/
theorem c3_is_master_file_characterisation (p : Plugin) :
    p.is_master_file = c3Spec p := by
  unfold Plugin.is_master_file c3Spec
  by_cases hg : p.game_id = GameId.Morrowind
  · simp only [hg, ne_eq, not_true_eq_false, if_false, if_true, ite_true, ite_false]
    cases hx : p.path.extension with
    | none => simp
    | some x =>
      by_cases he : x = esmBytes
      · simp [he]
      · by_cases hgh : x = ghostBytes
        · simp [he, hgh]
        · simp [he, hgh]
  · simp [hg]

/-- Claim-side masters pipeline (C4's words): one string per `MAST`
subrecord in declaration order, each obtained by dropping the payload's
final byte and decoding the rest as strict Windows-1252, the whole list
failing with a decode error if any payload fails strict decoding. -/
def c4Spec (header_record : Record) : Except Error (List (List Char)) :=
  (mastRecords header_record).mapM
    (fun s => (w1252Decode s.data.dropLast).mapError Error.DecodeError)

/-- The `masters` iteration agrees with the claim-side `mapM` pipeline as
long as no `MAST` payload is empty (empty payloads panic instead). -/
theorem mastersAux_eq_mapM (l : List Subrecord) (h : ∀ s ∈ l, s.data ≠ []) :
    mastersAux l
      = some (l.mapM (fun s => (w1252Decode s.data.dropLast).mapError Error.DecodeError)) := by
  induction l with
  | nil => rfl
  | cons s rest ih =>
    have hs : s.data ≠ [] := h s (List.mem_cons_self s rest)
    have hlen : 1 ≤ s.data.length := by
      cases hd : s.data with
      | nil => exact absurd hd hs
      | cons a t => simp [hd]
    have e1 : usizeSub s.data.length 1 = some (s.data.length - 1) := by
      unfold usizeSub
      rw [if_pos hlen]
    have e2 : rustSlice s.data 0 (s.data.length - 1) = some s.data.dropLast := by
      unfold rustSlice
      rw [if_pos ⟨Nat.zero_le _, Nat.sub_le _ _⟩, List.drop_zero, ← List.dropLast_eq_take]
    have ih2 := ih (fun t ht => h t (List.mem_cons_of_mem s ht))
    unfold mastersAux
    simp only [e1, e2, List.mapM_cons]
    cases hw : w1252Decode s.data.dropLast with
    | error m => simp [Except.mapError, Except.bind, Bind.bind]
    | ok str =>
      rw [ih2]
      cases hr : rest.mapM (fun t => (w1252Decode t.data.dropLast).mapError Error.DecodeError) with
      | error e2x => simp [Except.mapError, Except.bind, Bind.bind]
      | ok ll => simp [Except.mapError, Except.bind, Bind.bind, Pure.pure, Except.pure]

/-- Any error the claim-side pipeline produces is a `DecodeError`. -/
theorem mapM_error_is_decode (l : List Subrecord) (e : Error)
    (h : l.mapM (fun s => (w1252Decode s.data.dropLast).mapError Error.DecodeError)
      = .error e) : ∃ m, e = .DecodeError m := by
  induction l with
  | nil =>
    rw [List.mapM_nil] at h
    exact absurd h (by simp [Pure.pure, Except.pure])
  | cons s rest ih =>
    rw [List.mapM_cons] at h
    cases hw : w1252Decode s.data.dropLast with
    | error m =>
      rw [hw] at h
      simp only [Except.mapError, Except.bind, Bind.bind, Except.error.injEq] at h
      exact ⟨m, h.symm⟩
    | ok str =>
      rw [hw] at h
      have h3 : (rest.mapM (fun t => (w1252Decode t.data.dropLast).mapError Error.DecodeError)
          >>= fun xs => (pure (str :: xs) : Except Error (List (List Char))))
          = Except.error e := h
      cases hr : rest.mapM (fun t => (w1252Decode t.data.dropLast).mapError Error.DecodeError) with
      | error e2 =>
        rw [hr] at h3
        obtain rfl : e2 = e := Except.error.inj h3
        exact ih hr
      | ok ll =>
        rw [hr] at h3
        exact absurd h3 (by simp [Bind.bind, Except.bind, Pure.pure, Except.pure])

/-- C4: when every `MAST` payload is non-empty, `masters` returns exactly
the claim-side pipeline — one decoded string per `MAST` subrecord in
declaration order, the trailing byte dropped — and any failure it reports
is a decode error. -/
theorem c4_masters_strict_decode (header_record : Record)
    (h : ∀ s ∈ mastRecords header_record, s.data ≠ []) :
    masters header_record = some (c4Spec header_record)
    ∧ ∀ e, c4Spec header_record = .error e → ∃ m, e = .DecodeError m :=
  ⟨mastersAux_eq_mapM _ h, fun e he => mapM_error_is_decode _ e he⟩

/-- A header record with two well-formed `MAST` subrecords. -/
def c4Hr : Record := ⟨⟨tes4Type, 1, 0⟩, [⟨mastType, [0x41, 0]⟩, ⟨mastType, [0x42, 0]⟩]⟩

/-- A header record whose `MAST` payload fails strict decoding. -/
def c4HrBad : Record := ⟨⟨tes4Type, 0, 0⟩, [⟨mastType, [0x81, 0]⟩]⟩

/-- C4 witness: both halves of the claim at concrete header records, one
decodable and one with an undefined Windows-1252 byte. -/
theorem c4_witness :
    masters c4Hr = some (c4Spec c4Hr)
    ∧ ∃ m, Error.DecodeError "invalid sequence" = Error.DecodeError m :=
  ⟨(c4_masters_strict_decode c4Hr (by decide)).1,
    (c4_masters_strict_decode c4HrBad (by decide)).2
      (.DecodeError "invalid sequence") (by decide)⟩

/-- When no subrecord matches the target type, the description loop reports
the absence of a description (`Ok(None)`), not an empty string. -/
theorem descriptionAux_not_found (target : Bytes) (offset : Nat) (l : List Subrecord)
    (h : l.find? (fun t => decide (t.subrecord_type = target)) = none) :
    descriptionAux target offset l = some (.ok none) := by
  induction l with
  | nil => rfl
  | cons a rest ih =>
    by_cases ha : a.subrecord_type = target
    · rw [List.find?_cons_of_pos _ (by simp [ha])] at h
      exact absurd h (by simp)
    · rw [List.find?_cons_of_neg _ (by simp [ha])] at h
      unfold descriptionAux
      rw [if_neg ha]
      exact ih h

/-- When the first matching subrecord's payload reaches past the offset,
the description loop returns the strict decoding of the payload from the
offset up to but excluding the final byte. -/
theorem descriptionAux_found (target : Bytes) (offset : Nat) (l : List Subrecord)
    (s : Subrecord) (h : l.find? (fun t => decide (t.subrecord_type = target)) = some s)
    (hlen : offset + 1 ≤ s.data.length) :
    descriptionAux target offset l
      = some (((w1252Decode (s.data.dropLast.drop offset)).map Option.some).mapError
          Error.DecodeError) := by
  induction l with
  | nil => simp at h
  | cons a rest ih =>
    by_cases ha : a.subrecord_type = target
    · rw [List.find?_cons_of_pos _ (by simp [ha])] at h
      obtain rfl : s = a := (Option.some.inj h).symm
      have e1 : usizeSub s.data.length 1 = some (s.data.length - 1) := by
        unfold usizeSub
        rw [if_pos (by omega)]
      have e2 : rustSlice s.data offset (s.data.length - 1)
          = some (s.data.dropLast.drop offset) := by
        unfold rustSlice
        rw [if_pos ⟨by omega, Nat.sub_le _ _⟩, ← List.dropLast_eq_take]
      unfold descriptionAux
      rw [if_pos ha]
      simp only [e1, e2]
      cases hw : w1252Decode (s.data.dropLast.drop offset) with
      | error m => simp [Except.map, Except.mapError]
      | ok str => simp [Except.map, Except.mapError]
    · rw [List.find?_cons_of_neg _ (by simp [ha])] at h
      unfold descriptionAux
      rw [if_neg ha]
      exact ih h

/-- C5: `Plugin::description` selects the first subrecord of the
dialect-dependent target type (`HEDR` at offset 40 for Morrowind, `SNAM`
at offset 0 otherwise — `descTarget`); with no such subrecord it returns no
description, and with one whose payload reaches past the offset it returns
the strict Windows-1252 decoding of the payload from the offset up to but
excluding the final byte, surfacing decode failures as a decode error. -/
theorem c5_description_characterisation (p : Plugin) :
    (p.data.header_record.subrecords.find?
        (fun t => decide (t.subrecord_type = (descTarget p.game_id).1)) = none →
      p.description = some (.ok none))
    ∧ ∀ s, p.data.header_record.subrecords.find?
        (fun t => decide (t.subrecord_type = (descTarget p.game_id).1)) = some s →
      (descTarget p.game_id).2 + 1 ≤ s.data.length →
      p.description
        = some (((w1252Decode (s.data.dropLast.drop (descTarget p.game_id).2)).map
            Option.some).mapError Error.DecodeError) :=
  ⟨fun h => descriptionAux_not_found _ _ _ h,
    fun s h hl => descriptionAux_found _ _ _ s h hl⟩

/-- A Skyrim plugin whose header has a `SNAM` subrecord reading `"Hi\0"`. -/
def c5P : Plugin :=
  ⟨GameId.Skyrim, ⟨none⟩, ⟨⟨⟨tes4Type, 0, 0⟩, [⟨snamType, [0x48, 0x69, 0]⟩]⟩, []⟩⟩

/-- The `SNAM` subrecord of `c5P`. -/
def c5Sub : Subrecord := ⟨snamType, [0x48, 0x69, 0]⟩

/-- C5 witness: the description of `c5P` is the decoded `SNAM` payload. -/
theorem c5_witness : Plugin.description c5P = some (.ok (some ['H', 'i'])) :=
  ((c5_description_characterisation c5P).2 c5Sub rfl (by decide)).trans (by decide)

/-- A successful `Plugin::parse` comes from a `parse_plugin` `Done`, whose
data is what gets stored. -/
theorem parse_ok_elim (p : Plugin) (input : Bytes) (hdr : Bool) (fn : List Char)
    (r : Except Error Unit × Plugin) (hf : p.filename = some fn)
    (h : p.parse input hdr = some r) (hok : r.1 = .ok ()) :
    ∃ rest d, parse_plugin input p.game_id fn hdr = some (.Done rest d)
      ∧ r.2 = { p with data := d } := by
  unfold Plugin.parse at h
  simp only [hf] at h
  cases hpp : parse_plugin input p.game_id fn hdr with
  | none =>
    rw [hpp] at h
    exact absurd h (by simp)
  | some nr =>
    simp only [hpp] at h
    cases nr with
    | Done rest d =>
      have hr := Option.some.inj h
      exact ⟨rest, d, rfl, by rw [← hr]⟩
    | Error k =>
      have hr := Option.some.inj h
      rw [← hr] at hok
      simp [NResult.to_full_result] at hok
    | Incomplete =>
      have hr := Option.some.inj h
      rw [← hr] at hok
      simp [NResult.to_full_result] at hok

/-- Header-only and full `parse_plugin` runs decode the same leading header
record; the header-only run stores an empty form-id list. -/
theorem parse_plugin_done_headerOnly (input : Bytes) (gid : GameId) (fn : List Char)
    (rest : Bytes) (d : PluginData)
    (h : parse_plugin input gid fn true = some (.Done rest d)) :
    Record.parse gid false input = .Done rest d.header_record ∧ d.form_ids = [] := by
  unfold parse_plugin at h
  split at h
  · simp at h
  · simp at h
  · rename_i input1 hrec heq
    split at h
    · simp only [Option.some.injEq, NResult.Done.injEq] at h
      obtain ⟨rfl, rfl⟩ := h
      exact ⟨heq, rfl⟩
    · rename_i hcon
      exact absurd rfl hcon

/-- A full `parse_plugin` `Done` decodes the stored header record from the
front of the input. -/
theorem parse_plugin_done_full (input : Bytes) (gid : GameId) (fn : List Char)
    (rest : Bytes) (d : PluginData)
    (h : parse_plugin input gid fn false = some (.Done rest d)) :
    ∃ input1, Record.parse gid false input = .Done input1 d.header_record := by
  unfold parse_plugin at h
  split at h
  · simp at h
  · simp at h
  · rename_i input1 hrec heq
    split at h
    · rename_i hcon
      exact absurd hcon (by simp)
    · split at h
      · simp at h
      · simp at h
      · simp at h
      · rename_i input2 fids hpf
        simp only [Option.some.injEq, NResult.Done.injEq] at h
        obtain ⟨-, rfl⟩ := h
        exact ⟨input1, heq⟩

/-- Header-only and full `parse_plugin` runs decode the same leading header
record; the header-only run stores an empty form-id list. -/
theorem parse_plugin_header_agree (input : Bytes) (gid : GameId) (fn : List Char)
    (rest1 rest2 : Bytes) (d1 d2 : PluginData)
    (h1 : parse_plugin input gid fn true = some (.Done rest1 d1))
    (h2 : parse_plugin input gid fn false = some (.Done rest2 d2)) :
    d1.header_record = d2.header_record ∧ d1.form_ids = [] := by
  obtain ⟨hrp1, hfi⟩ := parse_plugin_done_headerOnly input gid fn rest1 d1 h1
  obtain ⟨i1, hrp2⟩ := parse_plugin_done_full input gid fn rest2 d2 h2
  rw [hrp1] at hrp2
  obtain ⟨-, hh⟩ := NResult.Done.inj hrp2
  exact ⟨hh, hfi⟩

/-- C6: when both the header-only and the full parse of the same input
succeed, they store the same header record, and the header-only parse
stores an empty form-id list. -/
theorem c6_header_only_agrees (p : Plugin) (input : Bytes)
    (rh rf : Except Error Unit × Plugin)
    (h1 : p.parse input true = some rh) (h2 : p.parse input false = some rf)
    (hok1 : rh.1 = .ok ()) (hok2 : rf.1 = .ok ()) :
    rh.2.data.header_record = rf.2.data.header_record
    ∧ rh.2.data.form_ids = [] := by
  cases hf : p.filename with
  | none =>
    unfold Plugin.parse at h1
    simp only [hf] at h1
    have hr := Option.some.inj h1
    rw [← hr] at hok1
    simp at hok1
  | some fn =>
    obtain ⟨rest1, d1, hpp1, hr1⟩ := parse_ok_elim p input true fn rh hf h1 hok1
    obtain ⟨rest2, d2, hpp2, hr2⟩ := parse_ok_elim p input false fn rf hf h2 hok2
    obtain ⟨hh, hfi⟩ := parse_plugin_header_agree input p.game_id fn rest1 rest2 d1 d2 hpp1 hpp2
    rw [hr1, hr2]
    exact ⟨hh, hfi⟩

/-- The shared outcome of both parse modes on `hdr20` for `p0`. -/
def c6Res : Except Error Unit × Plugin :=
  (.ok (), ⟨GameId.Skyrim, ⟨some blankEspName⟩, ⟨emptyTes4Record, []⟩⟩)

/-- C6 witness: both parse modes applied to the bare header record. -/
theorem c6_witness :
    c6Res.2.data.header_record = c6Res.2.data.header_record
    ∧ c6Res.2.data.form_ids = [] :=
  c6_header_only_agrees p0 hdr20 c6Res c6Res rfl rfl rfl rfl

end Espm
